import Mathlib

/-!
Shallow embedding of `postgres/datadog_checks/postgres/connections.py`
(classes `MultiDatabaseConnectionPool` and `MultiDatabaseConnectionPoolLimited`).

Modelling conventions:
- Wall-clock time (`datetime.datetime.now()`) is injected as a `Nat` parameter
  `now`; `deadline = now + ttl_ms` and `last_access = now` mirror lines 67-68.
- A psycopg2 connection is modelled by `Conn`: an object identity `id`, its
  `closed` flag, and whether `status == psycopg2.extensions.STATUS_READY`.
- Python `dict` (insertion ordered, unique keys) is modelled as an association
  list; `dictGet`, `dictPop`, `dictSet` mirror `d.get(k)` / `d.pop(k, default)`
  followed by use of the default / `d[k] = v`.
- Python exceptions are values of `PyErr`; a call that can raise returns
  `Pool × Except PyErr α` (state so far, and either the raised error or the
  return value).
- The injected connection factory `connect_fn` is a `ConnectFn`: its
  `parameters` field is the length of `inspect.signature(connect_fn).parameters`
  and `fn` is the callable itself, which may raise (`Except.error`).
-/

/-- Model of a psycopg2 connection object: `id` is the object identity,
`closed` the `closed` attribute, `status_ready` whether
`status == psycopg2.extensions.STATUS_READY`. -/
structure Conn where
  id : Nat
  closed : Bool
  status_ready : Bool
deriving DecidableEq

/-- Line 12: `ConnectionWithTTLAndLastAccess = namedtuple(..., "connection deadline last_access")`.
Entries stored by the pool always carry a real connection, so `connection`
is a `Conn` (the `(None, None, None)` default of `pop` is modelled by
`Option` at the use sites). -/
structure ConnectionWithTTLAndLastAccess where
  connection : Conn
  deadline : Nat
  last_access : Nat
deriving DecidableEq

/-- Lines 27-38: the `Stats` counters. -/
structure Stats where
  connection_opened : Nat
  connection_pruned : Nat
  connection_closed : Nat
  connection_closed_failed : Nat
deriving DecidableEq

def Stats.init : Stats := ⟨0, 0, 0, 0⟩

/-- Python exceptions that the modelled code can raise. -/
inductive PyErr where
  | valueError
  | keyError
  | connectionError
deriving DecidableEq

/-- The injected connection factory: `parameters` is
`len(inspect.signature(connect_fn).parameters)`, `fn` the callable. -/
structure ConnectFn where
  parameters : Nat
  fn : String → Except PyErr Conn

/-- Pool state. `conns` is `self._conns`, `stats` is `self._stats`.
`max_conn` and `dbs_usage` exist only on `MultiDatabaseConnectionPoolLimited`
(lines 112-116); base-pool operations never read them, and a base pool
carries `max_conn = 0`, `dbs_usage = []` as inert placeholders. -/
structure Pool where
  conns : List (String × ConnectionWithTTLAndLastAccess)
  stats : Stats
  connect_fn : ConnectFn
  max_conn : Nat
  dbs_usage : List (String × Bool)

/-- Python `d.get(k)` on an insertion-ordered dict. -/
def dictGet {α : Type} : List (String × α) → String → Option α
  | [], _ => none
  | (k, v) :: rest, key => if k = key then some v else dictGet rest key

/-- Python `d.pop(k, default)`: the dict after removing `k` (a no-op when `k`
is absent). -/
def dictPop {α : Type} : List (String × α) → String → List (String × α)
  | [], _ => []
  | (k, v) :: rest, key => if k = key then rest else (k, v) :: dictPop rest key

/-- Python `d[k] = v`: replace in place if present (keeping the position),
append otherwise. -/
def dictSet {α : Type} : List (String × α) → String → α → List (String × α)
  | [], key, v => [(key, v)]
  | (k, w) :: rest, key, v =>
    if k = key then (key, v) :: rest else (k, w) :: dictSet rest key v

/-- Lines 40-52: `MultiDatabaseConnectionPool.__init__`. On Python 3,
`hasattr(inspect, 'signature')` is true, so the arity of `connect_fn` is
checked and a `ValueError` is raised unless it is exactly 1. -/
def MultiDatabaseConnectionPool_init (connect_fn : ConnectFn) : Except PyErr Pool :=
  if connect_fn.parameters ≠ 1 then Except.error PyErr.valueError
  else Except.ok { conns := [], stats := Stats.init, connect_fn := connect_fn,
                   max_conn := 0, dbs_usage := [] }

/-- Lines 112-116: `MultiDatabaseConnectionPoolLimited.__init__` calls the
base init and then sets `max_conn`, a fresh `dbs_usage` and a fresh `_conns`. -/
def MultiDatabaseConnectionPoolLimited_init (connect_fn : ConnectFn) (max_conn : Nat) :
    Except PyErr Pool :=
  (MultiDatabaseConnectionPool_init connect_fn).map fun p => { p with max_conn := max_conn }

/-- Lines 95-105: `_terminate_connection_unsafe`. Line 96 reads
`db, _ = self._conns.pop(dbname, ConnectionWithTTLAndLastAccess(None, None, None))`:
the popped value is a 3-field namedtuple, so unpacking it into the two targets
`db, _` raises `ValueError: too many values to unpack (expected 2)` - always,
whether or not `dbname` was present (the default is also a 3-tuple). The
`pop` is evaluated before the unpacking fails, so the entry for `dbname` is
removed from the map; the `try: db.close()` body is never reached. -/
def terminate_connection (p : Pool) (dbname : String) : Pool × Except PyErr Bool :=
  ({ p with conns := dictPop p.conns dbname }, Except.error PyErr.valueError)

/-- Lines 81-84: the `for dbname, conn in list(self._conns.items())` loop body
of `prune_connections`, iterating over a snapshot of the entries while the
pool state evolves. A raised exception aborts the loop and propagates. -/
def pruneLoop (now : Nat) :
    Pool → List (String × ConnectionWithTTLAndLastAccess) → Pool × Except PyErr Unit
  | p, [] => (p, Except.ok ())
  | p, (dbname, conn) :: rest =>
    if conn.deadline < now then
      let p1 : Pool :=
        { p with stats := { p.stats with connection_pruned := p.stats.connection_pruned + 1 } }
      let r := terminate_connection p1 dbname
      match r.2 with
      | Except.error e => (r.1, Except.error e)
      | Except.ok _ => pruneLoop now r.1 rest
    else pruneLoop now p rest

/-- Lines 71-84: `prune_connections`, with `now = datetime.datetime.now()`
injected. -/
def prune_connections (p : Pool) (now : Nat) : Pool × Except PyErr Unit :=
  pruneLoop now p p.conns

/-- Lines 89-92: the `while self._conns:` loop of `close_all_connections`.
`next(iter(self._conns))` is the first key in insertion order. -/
def closeAllLoop (p : Pool) (success : Bool) : Pool × Except PyErr Bool :=
  match h : p.conns with
  | [] => (p, Except.ok success)
  | (dbname, _) :: _ =>
    match (terminate_connection p dbname).2 with
    | Except.error e => ((terminate_connection p dbname).1, Except.error e)
    | Except.ok ok => closeAllLoop (terminate_connection p dbname).1 (success && ok)
termination_by p.conns.length
decreasing_by
  simp [terminate_connection, h, dictPop]

/-- Lines 86-93: `close_all_connections`, starting with `success = True`. -/
def close_all_connections (p : Pool) : Pool × Except PyErr Bool :=
  closeAllLoop p true

/-- Lines 63-65: `if db.status != psycopg2.extensions.STATUS_READY: db.rollback()`.
A rollback restores the ready status of the connection object. -/
def rollback_if_needed (db : Conn) : Conn :=
  if db.status_ready then db else { db with status_ready := true }

/-- Lines 54-69: `MultiDatabaseConnectionPool.get_connection`. The
`self._conns.pop(dbname, ConnectionWithTTLAndLastAccess(None, None, None))`
followed by `db is None` is modelled by `dictGet` (is the key present?)
plus `dictPop` (the map after the pop). Both branches of
`if db is None or db.closed` open a new connection, incrementing
`connection_opened` before calling the factory, so a factory failure
propagates with the counter already incremented and the old entry already
popped. -/
def get_connection (p : Pool) (dbname : String) (ttl_ms : Nat) (now : Nat) :
    Pool × Except PyErr Conn :=
  match prune_connections p now with
  | (p1, Except.error e) => (p1, Except.error e)
  | (p1, Except.ok _) =>
    let entry := dictGet p1.conns dbname
    let p2 : Pool := { p1 with conns := dictPop p1.conns dbname }
    let opened : Pool × Except PyErr Conn :=
      match entry with
      | none =>
        let p3 : Pool :=
          { p2 with stats := { p2.stats with connection_opened := p2.stats.connection_opened + 1 } }
        match p3.connect_fn.fn dbname with
        | Except.error e => (p3, Except.error e)
        | Except.ok db => (p3, Except.ok db)
      | some c =>
        if c.connection.closed then
          let p3 : Pool :=
            { p2 with stats := { p2.stats with connection_opened := p2.stats.connection_opened + 1 } }
          match p3.connect_fn.fn dbname with
          | Except.error e => (p3, Except.error e)
          | Except.ok db => (p3, Except.ok db)
        else (p2, Except.ok c.connection)
    match opened with
    | (p3, Except.error e) => (p3, Except.error e)
    | (p3, Except.ok db0) =>
      let db := rollback_if_needed db0
      ({ p3 with conns := dictSet p3.conns dbname ⟨db, now + ttl_ms, now⟩ },
        Except.ok db)

/-- Lines 126: `min(self._conns, key = lambda t: self._conns.get(t).last_access)`,
the first key (in insertion order) attaining the minimal `last_access`.
`argminLastAccessAux` carries the best key and best value so far; a later key
replaces the best only on a strictly smaller value, as Python `min` does. -/
def argminLastAccessAux (bk : String) (bv : Nat) :
    List (String × ConnectionWithTTLAndLastAccess) → String
  | [] => bk
  | (k, e) :: rest =>
    if e.last_access < bv then argminLastAccessAux k e.last_access rest
    else argminLastAccessAux bk bv rest

def argminLastAccess : List (String × ConnectionWithTTLAndLastAccess) → Option String
  | [] => none
  | (k, e) :: rest => some (argminLastAccessAux k e.last_access rest)

/-- Lines 118-130: `MultiDatabaseConnectionPoolLimited._evict_lru`. Empty pool:
return. Otherwise select the LRU key; `self.dbs_usage[lru]` raises `KeyError`
when the key is missing from `dbs_usage`; if the flag is true, return without
evicting; otherwise `self._conns.pop(lru)` - note: no call to
`_terminate_connection_unsafe`, the connection is not closed and no counter
changes. -/
def evict_lru (p : Pool) : Pool × Except PyErr Unit :=
  if p.conns.length = 0 then (p, Except.ok ())
  else
    match argminLastAccess p.conns with
    | none => (p, Except.ok ())
    | some lru =>
      match dictGet p.dbs_usage lru with
      | none => (p, Except.error PyErr.keyError)
      | some true => (p, Except.ok ())
      | some false => ({ p with conns := dictPop p.conns lru }, Except.ok ())

/-- Lines 144-145: the `while len(self._conns) > self.max_conn: self._evict_lru()`
loop, run for at most `fuel` iterations; `none` means the loop was still
running when the fuel ran out (so the Python loop runs forever whenever
`evictLoop fuel p = none` holds for every `fuel`). -/
def evictLoop : Nat → Pool → Option (Pool × Except PyErr Unit)
  | 0, p => if p.conns.length > p.max_conn then none else some (p, Except.ok ())
  | fuel + 1, p =>
    if p.conns.length > p.max_conn then
      let r := evict_lru p
      match r.2 with
      | Except.error e => some (r.1, Except.error e)
      | Except.ok _ => evictLoop fuel r.1
    else some (p, Except.ok ())

/-- Lines 147-148: after the eviction loop, `conn = super().get_connection(...)`
(without marking `dbs_usage`). -/
def afterEvict (dbname : String) (ttl_ms now : Nat) :
    Option (Pool × Except PyErr Unit) → Option (Pool × Except PyErr Conn)
  | none => none
  | some (p2, Except.error e) => some (p2, Except.error e)
  | some (p2, Except.ok _) => some (get_connection p2 dbname ttl_ms now)

/-- Lines 132-148: `MultiDatabaseConnectionPoolLimited.get_connection`.
Prune first; read `db_pool_len` under the lock; below capacity, delegate to
the base `get_connection` and then set `self.dbs_usage[dbname] = True`;
otherwise run the eviction loop (with `fuel` as the divergence bound) and
delegate to the base `get_connection` without touching `dbs_usage`. -/
def get_connection_limited (fuel : Nat) (p : Pool) (dbname : String) (ttl_ms now : Nat) :
    Option (Pool × Except PyErr Conn) :=
  let pr := prune_connections p now
  match pr.2 with
  | Except.error e => some (pr.1, Except.error e)
  | Except.ok _ =>
    let p1 := pr.1
    let db_pool_len := p1.conns.length
    if db_pool_len < p1.max_conn then
      let gr := get_connection p1 dbname ttl_ms now
      match gr.2 with
      | Except.error e => some (gr.1, Except.error e)
      | Except.ok c =>
        some ({ gr.1 with dbs_usage := dictSet gr.1.dbs_usage dbname true }, Except.ok c)
    else
      afterEvict dbname ttl_ms now (evictLoop fuel p1)

/-- Keys paired with the (strictly increasing) times at which they are
acquired: `timedKeys i [a, b, c] = [(a, i), (b, i+1), (c, i+2)]`. -/
def timedKeys : Nat → List String → List (String × Nat)
  | _, [] => []
  | i, k :: ks => (k, i) :: timedKeys (i + 1) ks

/-- A sequence of `get_connection_limited` calls, aborting on a raised
exception (or on fuel exhaustion of the eviction loop). -/
def acquireSeq (fuel ttl_ms : Nat) : Pool → List (String × Nat) → Option Pool
  | p, [] => some p
  | p, (k, t) :: rest =>
    match get_connection_limited fuel p k ttl_ms t with
    | some (p1, Except.ok _) => acquireSeq fuel ttl_ms p1 rest
    | _ => none

/-- A freshly constructed `MultiDatabaseConnectionPoolLimited` whose factory
has the mandatory single parameter and always succeeds, returning `cf s` for
database name `s`. -/
def freshLimited (cf : String → Conn) (max_conn : Nat) : Pool :=
  { conns := [], stats := Stats.init,
    connect_fn := { parameters := 1, fn := fun s => Except.ok (cf s) },
    max_conn := max_conn, dbs_usage := [] }

theorem dictGet_eq_none_of_not_mem {α : Type} {l : List (String × α)} {k : String}
    (h : k ∉ l.map Prod.fst) : dictGet l k = none := by
  induction l with
  | nil => rfl
  | cons kv rest ih =>
    simp only [List.map_cons, List.mem_cons, not_or] at h
    simp only [dictGet]
    rw [if_neg (fun he => h.1 he.symm)]
    exact ih h.2

theorem not_mem_of_dictGet_eq_none {α : Type} {l : List (String × α)} {k : String}
    (h : dictGet l k = none) : k ∉ l.map Prod.fst := by
  induction l with
  | nil => simp
  | cons kv rest ih =>
    simp only [dictGet] at h
    by_cases he : kv.1 = k
    · rw [show kv = (kv.1, kv.2) from rfl, if_pos he] at h
      exact absurd h (by simp)
    · rw [show kv = (kv.1, kv.2) from rfl, if_neg he] at h
      simp only [List.map_cons, List.mem_cons, not_or]
      exact ⟨fun hk => he hk.symm, ih h⟩

theorem dictPop_eq_self_of_not_mem {α : Type} {l : List (String × α)} {k : String}
    (h : k ∉ l.map Prod.fst) : dictPop l k = l := by
  induction l with
  | nil => rfl
  | cons kv rest ih =>
    simp only [List.map_cons, List.mem_cons, not_or] at h
    simp only [dictPop]
    rw [show kv = (kv.1, kv.2) from rfl, if_neg (fun he => h.1 he.symm)]
    rw [ih h.2]

theorem dictSet_eq_append_of_not_mem {α : Type} {l : List (String × α)} {k : String}
    (v : α) (h : k ∉ l.map Prod.fst) : dictSet l k v = l ++ [(k, v)] := by
  induction l with
  | nil => rfl
  | cons kv rest ih =>
    simp only [List.map_cons, List.mem_cons, not_or] at h
    simp only [dictSet]
    rw [show kv = (kv.1, kv.2) from rfl, if_neg (fun he => h.1 he.symm)]
    rw [ih h.2]
    rfl

theorem dictGet_dictSet_self {α : Type} (l : List (String × α)) (k : String) (v : α) :
    dictGet (dictSet l k v) k = some v := by
  induction l with
  | nil => simp [dictSet, dictGet]
  | cons kv rest ih =>
    simp only [dictSet]
    by_cases he : kv.1 = k
    · rw [show kv = (kv.1, kv.2) from rfl, if_pos he]
      simp [dictGet]
    · rw [show kv = (kv.1, kv.2) from rfl, if_neg he]
      simp only [dictGet]
      rw [if_neg he]
      exact ih

theorem dictGet_dictPop_self {α : Type} {l : List (String × α)} {k : String}
    (h : (l.map Prod.fst).Nodup) : dictGet (dictPop l k) k = none := by
  induction l with
  | nil => rfl
  | cons kv rest ih =>
    simp only [List.map_cons, List.nodup_cons] at h
    simp only [dictPop]
    by_cases he : kv.1 = k
    · rw [show kv = (kv.1, kv.2) from rfl, if_pos he]
      exact dictGet_eq_none_of_not_mem (he ▸ h.1)
    · rw [show kv = (kv.1, kv.2) from rfl, if_neg he]
      simp only [dictGet]
      rw [if_neg he]
      exact ih h.2

theorem pruneLoop_no_expired (now : Nat) :
    ∀ (l : List (String × ConnectionWithTTLAndLastAccess)) (p : Pool),
      (∀ kv ∈ l, ¬ (kv.2.deadline < now)) → pruneLoop now p l = (p, Except.ok ()) := by
  intro l
  induction l with
  | nil => intro p _; rfl
  | cons kv rest ih =>
    intro p hl
    have hkv : ¬ (kv.2.deadline < now) := hl kv (List.mem_cons_self kv rest)
    rw [show kv = (kv.1, kv.2) from rfl]
    simp only [pruneLoop]
    rw [if_neg hkv]
    exact ih p (fun x hx => hl x (List.mem_cons_of_mem kv hx))

/-- Lines 79-84: a prune pass over a pool in which no deadline has passed is a
no-op returning normally. -/
theorem prune_connections_no_expired (p : Pool) (now : Nat)
    (h : ∀ kv ∈ p.conns, ¬ (kv.2.deadline < now)) :
    prune_connections p now = (p, Except.ok ()) :=
  pruneLoop_no_expired now p.conns p h

/-- Lines 54-69 in the fresh-key case: no entry is stored for `dbname`, no
entry of the pool has expired, and the factory succeeds with `c`. The entry
appended at the end of the map carries `deadline = now + ttl_ms` and
`last_access = now`, and `connection_opened` is incremented. -/
theorem get_connection_fresh (p : Pool) (dbname : String) (ttl_ms now : Nat) (c : Conn)
    (hnp : ∀ kv ∈ p.conns, ¬ (kv.2.deadline < now))
    (hfresh : dictGet p.conns dbname = none)
    (hfn : p.connect_fn.fn dbname = Except.ok c) :
    get_connection p dbname ttl_ms now =
      ({ p with
          conns := p.conns ++ [(dbname, ⟨rollback_if_needed c, now + ttl_ms, now⟩)],
          stats := { p.stats with connection_opened := p.stats.connection_opened + 1 } },
        Except.ok (rollback_if_needed c)) := by
  have hnm := not_mem_of_dictGet_eq_none hfresh
  simp only [get_connection, prune_connections_no_expired p now hnp, hfresh,
    dictPop_eq_self_of_not_mem hnm, hfn, dictSet_eq_append_of_not_mem _ hnm]

/-- Lines 54-69 in the reuse case: an entry `e` is stored for `dbname`, its
connection is not closed, and no entry of the pool has expired. The stored
connection itself is handed back (after a rollback when its status is not
ready), `connection_opened` is untouched, and the entry is re-inserted at the
end of the map with refreshed `deadline` and `last_access`. -/
theorem get_connection_reuse (p : Pool) (dbname : String)
    (e : ConnectionWithTTLAndLastAccess) (ttl_ms now : Nat)
    (hnp : ∀ kv ∈ p.conns, ¬ (kv.2.deadline < now))
    (hget : dictGet p.conns dbname = some e)
    (hopen : e.connection.closed = false) :
    get_connection p dbname ttl_ms now =
      ({ p with conns := dictSet (dictPop p.conns dbname) dbname ⟨rollback_if_needed e.connection, now + ttl_ms, now⟩ },
        Except.ok (rollback_if_needed e.connection)) := by
  simp only [get_connection, prune_connections_no_expired p now hnp, hget, hopen,
    Bool.false_eq_true, if_false]

/-- Lines 144-145: when the pool is not over capacity the eviction loop exits
at once, for any fuel. -/
theorem evictLoop_skip (p : Pool) (h : ¬ (p.conns.length > p.max_conn)) :
    ∀ fuel : Nat, evictLoop fuel p = some (p, Except.ok ()) := by
  intro fuel
  cases fuel with
  | zero => simp [evictLoop, h]
  | succ n => simp [evictLoop, h]

/-- Lines 132-148 in the fresh-key case with the pool at or below capacity:
the call returns (for any fuel), hands out the freshly opened connection, and
appends the new entry without evicting anything - in particular a pool holding
exactly `max_conn` entries grows to `max_conn + 1` entries, because the
eviction loop only runs while the count strictly exceeds `max_conn`. -/
theorem get_connection_limited_fresh (fuel : Nat) (p : Pool) (dbname : String)
    (ttl_ms now : Nat) (c : Conn)
    (hnp : ∀ kv ∈ p.conns, ¬ (kv.2.deadline < now))
    (hfresh : dictGet p.conns dbname = none)
    (hfn : p.connect_fn.fn dbname = Except.ok c)
    (hlen : p.conns.length ≤ p.max_conn) :
    ∃ q : Pool,
      get_connection_limited fuel p dbname ttl_ms now =
        some (q, Except.ok (rollback_if_needed c)) ∧
      q.conns = p.conns ++ [(dbname, ⟨rollback_if_needed c, now + ttl_ms, now⟩)] ∧
      q.stats.connection_opened = p.stats.connection_opened + 1 ∧
      q.connect_fn = p.connect_fn ∧
      q.max_conn = p.max_conn := by
  have hbase := get_connection_fresh p dbname ttl_ms now c hnp hfresh hfn
  by_cases hlt : p.conns.length < p.max_conn
  · simp only [get_connection_limited, prune_connections_no_expired p now hnp]
    rw [if_pos hlt, hbase]
    exact ⟨_, rfl, rfl, rfl, rfl, rfl⟩
  · have hskip : ¬ (p.conns.length > p.max_conn) := by omega
    simp only [get_connection_limited, prune_connections_no_expired p now hnp]
    rw [if_neg hlt, evictLoop_skip p hskip fuel]
    simp only [afterEvict, hbase]
    exact ⟨_, rfl, rfl, rfl, rfl, rfl⟩

/-- Acquiring a list of pairwise-distinct fresh keys at strictly increasing
times `i, i+1, ...` on a bounded pool that starts at most one below the
point where eviction would trigger: every call returns normally, nothing is
ever evicted, and the keys accumulate in acquisition order. -/
theorem acquireSeq_fresh_keys (fuel ttl_ms : Nat) (cf : String → Conn) :
    ∀ (ks : List String) (i : Nat) (p : Pool),
      (∀ s, p.connect_fn.fn s = Except.ok (cf s)) →
      ((p.conns.map Prod.fst) ++ ks).Nodup →
      p.conns.length = i →
      i + ks.length = p.max_conn + 1 →
      p.max_conn ≤ ttl_ms →
      (∀ kv ∈ p.conns, ttl_ms ≤ kv.2.deadline) →
      ∃ q : Pool, acquireSeq fuel ttl_ms p (timedKeys i ks) = some q ∧
        q.conns.map Prod.fst = p.conns.map Prod.fst ++ ks := by
  intro ks
  induction ks with
  | nil =>
    intro i p hfn hnd hlen hsum httl hdl
    exact ⟨p, rfl, by simp⟩
  | cons k rest ih =>
    intro i p hfn hnd hlen hsum httl hdl
    have hile : i ≤ p.max_conn := by
      simp only [List.length_cons] at hsum
      omega
    have hnp : ∀ kv ∈ p.conns, ¬ (kv.2.deadline < i) := by
      intro kv hkv
      have h1 := hdl kv hkv
      omega
    have hknot : k ∉ p.conns.map Prod.fst := by
      rcases List.nodup_append.mp hnd with ⟨h1, h2, hdisj⟩
      intro hk
      exact hdisj hk (List.mem_cons_self k rest)
    have hfresh : dictGet p.conns k = none := dictGet_eq_none_of_not_mem hknot
    obtain ⟨q, heq, hconns, hopen, hcfn, hmax⟩ :=
      get_connection_limited_fresh fuel p k ttl_ms i (cf k) hnp hfresh (hfn k) (hlen ▸ hile)
    have hfn2 : ∀ s, q.connect_fn.fn s = Except.ok (cf s) := by
      intro s
      rw [hcfn]
      exact hfn s
    have hmap : q.conns.map Prod.fst = p.conns.map Prod.fst ++ [k] := by
      rw [hconns]
      simp
    have hnd2 : ((q.conns.map Prod.fst) ++ rest).Nodup := by
      rw [hmap, List.append_assoc, List.singleton_append]
      exact hnd
    have hlen2 : q.conns.length = i + 1 := by
      rw [hconns]
      simp [hlen]
    have hsum2 : (i + 1) + rest.length = q.max_conn + 1 := by
      rw [hmax]
      simp only [List.length_cons] at hsum
      omega
    have httl2 : q.max_conn ≤ ttl_ms := hmax ▸ httl
    have hdl2 : ∀ kv ∈ q.conns, ttl_ms ≤ kv.2.deadline := by
      intro kv hkv
      rw [hconns] at hkv
      rcases List.mem_append.mp hkv with hold | hnew
      · exact hdl kv hold
      · have : kv = (k, ⟨rollback_if_needed (cf k), i + ttl_ms, i⟩) := by
          simpa using hnew
        rw [this]
        simp
    obtain ⟨qf, heqf, hmapf⟩ := ih (i + 1) q hfn2 hnd2 hlen2 hsum2 httl2 hdl2
    refine ⟨qf, ?_, ?_⟩
    · simp only [timedKeys, acquireSeq, heq]
      exact heqf
    · rw [hmapf, hmap, List.append_assoc, List.singleton_append]

/-- A factory with the mandatory single parameter that always succeeds. -/
def cfOk : ConnectFn := ⟨1, fun _ => Except.ok ⟨0, false, true⟩⟩

def connA : Conn := ⟨1, false, true⟩

def connB : Conn := ⟨2, false, true⟩

/-- A pool holding two open connections, neither expired. -/
def poolCloseAll : Pool :=
  ⟨[("a", ⟨connA, 100, 0⟩), ("b", ⟨connB, 100, 1⟩)], ⟨2, 0, 0, 0⟩, cfOk, 0, []⟩

/-- C2: `close_all_connections` on a pool holding entries "a" and "b" does not
empty the map and does not return a boolean: the first loop iteration pops "a"
inside `_terminate_connection_unsafe` and then raises `ValueError` (line 96
unpacks the 3-field namedtuple into two targets), so the call propagates
`ValueError`, leaves "b" in the map, and no counter changes. This contradicts
the claim that the map is emptied and a success boolean is returned, with
close failures counted per entry. -/
theorem c2_close_all_raises_valueerror :
    (close_all_connections poolCloseAll).2 = Except.error PyErr.valueError ∧
    (close_all_connections poolCloseAll).1.conns = [("b", ⟨connB, 100, 1⟩)] ∧
    (close_all_connections poolCloseAll).1.stats = poolCloseAll.stats := by
  refine ⟨?_, ?_, ?_⟩ <;>
    simp [close_all_connections, closeAllLoop, terminate_connection,
      poolCloseAll, dictPop]

/-- A pool holding one entry, with every counter nonzero so that counter
changes are visible. -/
def poolTerminate : Pool := ⟨[("a", ⟨connA, 100, 0⟩)], ⟨5, 6, 7, 8⟩, cfOk, 0, []⟩

/-- C3: `_terminate_connection_unsafe` on a key present in the map removes the
entry (the `pop` happens first) but then raises `ValueError` from the
two-target unpacking of the 3-field namedtuple (line 96): the close call is
never attempted, neither "closed" nor "closed-failed" changes, and the
exception propagates to the caller - contradicting the claim that close is
attempted, counted, and that no exception propagates. -/
theorem c3_terminate_raises_valueerror :
    terminate_connection poolTerminate "a" =
      ({ poolTerminate with conns := [] }, Except.error PyErr.valueError) ∧
    (terminate_connection poolTerminate "a").1.stats.connection_closed = 7 ∧
    (terminate_connection poolTerminate "a").1.stats.connection_closed_failed = 8 := by
  refine ⟨?_, rfl, rfl⟩
  simp [terminate_connection, poolTerminate, dictPop]

/-- A pool holding one entry whose deadline (10) has passed at time 20. -/
def poolPrune : Pool := ⟨[("a", ⟨connA, 10, 0⟩)], Stats.init, cfOk, 0, []⟩

/-- C4: `prune_connections` at a time past the entry deadline increments
"pruned" and removes the entry, but then propagates the `ValueError` raised
inside `_terminate_connection_unsafe` (line 96) and never closes the
connection ("closed" stays 0) - contradicting the claim that the removed
connection is closed exactly once and that prune completes normally. -/
theorem c4_prune_raises_valueerror :
    (prune_connections poolPrune 20).2 = Except.error PyErr.valueError ∧
    (prune_connections poolPrune 20).1.conns = [] ∧
    (prune_connections poolPrune 20).1.stats.connection_pruned = 1 ∧
    (prune_connections poolPrune 20).1.stats.connection_closed = 0 :=
  ⟨rfl, rfl, rfl, rfl⟩

/-- A pool holding two entries whose deadlines (10 and 11) have both passed at
time 20. -/
def poolPruneTwo : Pool :=
  ⟨[("a", ⟨connA, 10, 0⟩), ("b", ⟨connB, 11, 1⟩)], Stats.init, cfOk, 0, []⟩

/-- C8: two successive `prune_connections` calls at the same time are not
idempotent when two entries have expired: the first call removes only "a"
(the `ValueError` raised by `_terminate_connection_unsafe` aborts the scan)
and sets "pruned" to 1; the second call removes "b" and sets "pruned" to 2 -
the second call changes the state and increments a counter, contradicting
the claim. -/
theorem c8_prune_not_idempotent :
    (prune_connections poolPruneTwo 20).1.conns = [("b", ⟨connB, 11, 1⟩)] ∧
    (prune_connections poolPruneTwo 20).1.stats.connection_pruned = 1 ∧
    (prune_connections (prune_connections poolPruneTwo 20).1 20).1.conns = [] ∧
    (prune_connections (prune_connections poolPruneTwo 20).1 20).1.stats.connection_pruned = 2 :=
  ⟨rfl, rfl, rfl, rfl⟩

/-- A pool with one not-in-use entry and every counter nonzero. -/
def poolEvict : Pool := ⟨[("a", ⟨connA, 100, 5⟩)], ⟨4, 3, 2, 1⟩, cfOk, 3, [("a", false)]⟩

/-- C6: an LRU eviction that does evict (victim "a", not in use) removes the
entry from the map but leaves every counter unchanged and raises nothing:
`_evict_lru` calls `self._conns.pop(lru)` directly (line 130) and never goes
through `_terminate_connection_unsafe`, so neither "closed" nor
"closed-failed" is incremented for the victim - contradicting the claim that
the victim is closed via the same terminate path as pruning. -/
theorem c6_eviction_no_close_counterexample :
    (evict_lru poolEvict).1.conns = [] ∧
    (evict_lru poolEvict).1.stats = poolEvict.stats ∧
    (evict_lru poolEvict).2 = Except.ok () :=
  ⟨rfl, rfl, rfl⟩

/-- C6 (amended): every LRU eviction that selects a not-in-use victim removes
the victim entry from the map by a bare `pop`, returns normally, and leaves
the stats (in particular "closed" and "closed-failed") unchanged - the
terminate path of pruning is not used and the victim connection is never
closed. -/
theorem c6_eviction_pops_without_close (p : Pool) (lru : String)
    (hne : ¬ (p.conns.length = 0))
    (hmin : argminLastAccess p.conns = some lru)
    (husage : dictGet p.dbs_usage lru = some false) :
    evict_lru p = ({ p with conns := dictPop p.conns lru }, Except.ok ()) ∧
    (evict_lru p).1.stats.connection_closed = p.stats.connection_closed ∧
    (evict_lru p).1.stats.connection_closed_failed = p.stats.connection_closed_failed := by
  have h1 : evict_lru p = ({ p with conns := dictPop p.conns lru }, Except.ok ()) := by
    simp [evict_lru, hne, hmin, husage]
  exact ⟨h1, by rw [h1], by rw [h1]⟩

/-- A two-entry pool for exercising the amended C6 statement: "y" is the LRU
victim (last access 3 against 9) and is not in use. -/
def poolEvictW : Pool :=
  ⟨[("x", ⟨connA, 50, 9⟩), ("y", ⟨connB, 60, 3⟩)], Stats.init, cfOk, 1,
    [("x", false), ("y", false)]⟩

theorem c6_eviction_witness :
    (¬ (poolEvictW.conns.length = 0) ∧
      argminLastAccess poolEvictW.conns = some "y" ∧
      dictGet poolEvictW.dbs_usage "y" = some false) ∧
    (evict_lru poolEvictW = ({ poolEvictW with conns := dictPop poolEvictW.conns "y" }, Except.ok ()) ∧
      (evict_lru poolEvictW).1.stats.connection_closed = poolEvictW.stats.connection_closed ∧
      (evict_lru poolEvictW).1.stats.connection_closed_failed = poolEvictW.stats.connection_closed_failed) :=
  ⟨⟨by decide, by decide, by decide⟩,
    c6_eviction_pops_without_close poolEvictW "y" (by decide) (by decide) (by decide)⟩

theorem rollback_if_needed_id (c : Conn) : (rollback_if_needed c).id = c.id := by
  unfold rollback_if_needed
  split <;> rfl

/-- C7: acquiring a key whose stored connection is still open, at a time `t2`
later than the stored `last_access` and before any entry of the pool has
expired (so the implicit prune removes nothing), returns the very connection
object stored at the first acquire (same identity, rolled back in place if
its status was not ready), leaves every counter - in particular "opened" -
unchanged, and stores the entry back with `last_access = t2`, strictly
greater than the previous `last_access`. -/
theorem c7_reuse_same_connection (p : Pool) (dbname : String)
    (e : ConnectionWithTTLAndLastAccess) (ttl_ms t2 : Nat)
    (hget : dictGet p.conns dbname = some e)
    (hopen : e.connection.closed = false)
    (hnp : ∀ kv ∈ p.conns, ¬ (kv.2.deadline < t2))
    (hlast : e.last_access < t2) :
    ∃ (p2 : Pool) (db : Conn),
      get_connection p dbname ttl_ms t2 = (p2, Except.ok db) ∧
      db.id = e.connection.id ∧
      p2.stats = p.stats ∧
      ∃ e2, dictGet p2.conns dbname = some e2 ∧
        e2.last_access = t2 ∧
        e.last_access < e2.last_access ∧
        e2.connection.id = e.connection.id := by
  have h := get_connection_reuse p dbname e ttl_ms t2 hnp hget hopen
  refine ⟨_, _, h, rollback_if_needed_id e.connection, rfl,
    ⟨rollback_if_needed e.connection, t2 + ttl_ms, t2⟩, dictGet_dictSet_self _ _ _,
    rfl, hlast, rollback_if_needed_id e.connection⟩

/-- One open, ready, unexpired stored connection for key "db1". -/
def poolReuse : Pool := ⟨[("db1", ⟨⟨7, false, true⟩, 100, 5⟩)], Stats.init, cfOk, 0, []⟩

theorem c7_reuse_witness :
    (dictGet poolReuse.conns "db1" = some ⟨⟨7, false, true⟩, 100, 5⟩ ∧
      (⟨7, false, true⟩ : Conn).closed = false ∧
      (∀ kv ∈ poolReuse.conns, ¬ (kv.2.deadline < 30)) ∧
      (5 : Nat) < 30) ∧
    (∃ (p2 : Pool) (db : Conn),
      get_connection poolReuse "db1" 50 30 = (p2, Except.ok db) ∧
      db.id = (⟨7, false, true⟩ : Conn).id ∧
      p2.stats = poolReuse.stats ∧
      ∃ e2, dictGet p2.conns "db1" = some e2 ∧
        e2.last_access = 30 ∧
        (5 : Nat) < e2.last_access ∧
        e2.connection.id = (⟨7, false, true⟩ : Conn).id) :=
  ⟨⟨by decide, by decide, by decide, by decide⟩,
    c7_reuse_same_connection poolReuse "db1" ⟨⟨7, false, true⟩, 100, 5⟩ 50 30
      (by decide) (by decide) (by decide) (by decide)⟩

/-- C10: when no usable stored connection exists (no entry, or a stored entry
whose connection is closed) and the factory raises, the factory error
propagates out of `get_connection` with "opened" already incremented by one
and the old entry (if any) already popped: no entry remains stored for the
key. The pool is assumed to have no expired entries (so the implicit prune
returns normally) and dict-like unique keys. -/
theorem c10_factory_failure_propagates (p : Pool) (dbname : String)
    (ttl_ms now : Nat) (err : PyErr)
    (hnd : (p.conns.map Prod.fst).Nodup)
    (hnp : ∀ kv ∈ p.conns, ¬ (kv.2.deadline < now))
    (hnouse : dictGet p.conns dbname = none ∨
      ∃ e, dictGet p.conns dbname = some e ∧ e.connection.closed = true)
    (hfn : p.connect_fn.fn dbname = Except.error err) :
    ∃ p2 : Pool,
      get_connection p dbname ttl_ms now = (p2, Except.error err) ∧
      p2.stats.connection_opened = p.stats.connection_opened + 1 ∧
      p2.conns = dictPop p.conns dbname ∧
      dictGet p2.conns dbname = none := by
  rcases hnouse with hfresh | ⟨e, hget, hclosed⟩
  · have hrun : get_connection p dbname ttl_ms now =
        ({ p with
            conns := dictPop p.conns dbname,
            stats := { p.stats with connection_opened := p.stats.connection_opened + 1 } },
          Except.error err) := by
      simp only [get_connection, prune_connections_no_expired p now hnp, hfresh, hfn]
    exact ⟨_, hrun, rfl, rfl, dictGet_dictPop_self hnd⟩
  · have hrun : get_connection p dbname ttl_ms now =
        ({ p with
            conns := dictPop p.conns dbname,
            stats := { p.stats with connection_opened := p.stats.connection_opened + 1 } },
          Except.error err) := by
      simp [get_connection, prune_connections_no_expired p now hnp, hget, hclosed, hfn]
    exact ⟨_, hrun, rfl, rfl, dictGet_dictPop_self hnd⟩

/-- A factory with the mandatory single parameter that always raises. -/
def cfErr : ConnectFn := ⟨1, fun _ => Except.error PyErr.connectionError⟩

/-- One stored entry for "db1" whose connection is already closed, and a
factory that raises. -/
def poolFactoryFail : Pool :=
  ⟨[("db1", ⟨⟨3, true, true⟩, 100, 5⟩)], Stats.init, cfErr, 0, []⟩

theorem c10_factory_failure_witness :
    ((poolFactoryFail.conns.map Prod.fst).Nodup ∧
      (∀ kv ∈ poolFactoryFail.conns, ¬ (kv.2.deadline < 30)) ∧
      dictGet poolFactoryFail.conns "db1" = some ⟨⟨3, true, true⟩, 100, 5⟩ ∧
      (⟨3, true, true⟩ : Conn).closed = true ∧
      poolFactoryFail.connect_fn.fn "db1" = Except.error PyErr.connectionError) ∧
    (∃ p2 : Pool,
      get_connection poolFactoryFail "db1" 50 30 = (p2, Except.error PyErr.connectionError) ∧
      p2.stats.connection_opened = poolFactoryFail.stats.connection_opened + 1 ∧
      p2.conns = dictPop poolFactoryFail.conns "db1" ∧
      dictGet p2.conns "db1" = none) :=
  ⟨⟨by decide, by decide, by decide, by decide, rfl⟩,
    c10_factory_failure_propagates poolFactoryFail "db1" 50 30 PyErr.connectionError
      (by decide) (by decide)
      (Or.inr ⟨⟨⟨3, true, true⟩, 100, 5⟩, by decide, by decide⟩) rfl⟩

/-- C5 (amended): on a bounded pool whose entries are all marked in-use and
whose entry count is at most `max_conn`, acquiring a new distinct key (with
nothing expired and a succeeding factory) terminates for any fuel and returns
a connection, growing the map by one entry - so at `max_conn` entries the
count transiently becomes `max_conn + 1`. (When the count already exceeds
`max_conn`, the eviction loop never terminates; see the counterexample.) -/
theorem c5_acquire_terminates_at_capacity (fuel : Nat) (p : Pool) (dbname : String)
    (ttl_ms now : Nat) (c : Conn)
    (hall : ∀ kv ∈ p.conns, dictGet p.dbs_usage kv.1 = some true)
    (hlen : p.conns.length ≤ p.max_conn)
    (hnp : ∀ kv ∈ p.conns, ¬ (kv.2.deadline < now))
    (hfresh : dictGet p.conns dbname = none)
    (hfn : p.connect_fn.fn dbname = Except.ok c) :
    ∃ (q : Pool) (db : Conn),
      get_connection_limited fuel p dbname ttl_ms now = some (q, Except.ok db) ∧
      q.conns.length = p.conns.length + 1 := by
  obtain ⟨q, heq, hconns, _, _, _⟩ :=
    get_connection_limited_fresh fuel p dbname ttl_ms now c hnp hfresh hfn hlen
  refine ⟨q, _, heq, ?_⟩
  rw [hconns]
  simp

/-- A bounded pool exactly at capacity (`max_conn = 1`, one entry) whose only
entry is marked in-use. -/
def poolAtCap : Pool := ⟨[("a", ⟨connA, 100, 0⟩)], Stats.init, cfOk, 1, [("a", true)]⟩

theorem c5_acquire_terminates_witness :
    ((∀ kv ∈ poolAtCap.conns, dictGet poolAtCap.dbs_usage kv.1 = some true) ∧
      poolAtCap.conns.length ≤ poolAtCap.max_conn ∧
      (∀ kv ∈ poolAtCap.conns, ¬ (kv.2.deadline < 10)) ∧
      dictGet poolAtCap.conns "b" = none ∧
      poolAtCap.connect_fn.fn "b" = Except.ok ⟨0, false, true⟩) ∧
    (∃ (q : Pool) (db : Conn),
      get_connection_limited 0 poolAtCap "b" 50 10 = some (q, Except.ok db) ∧
      q.conns.length = poolAtCap.conns.length + 1) :=
  ⟨⟨by decide, by decide, by decide, by decide, rfl⟩,
    c5_acquire_terminates_at_capacity 0 poolAtCap "b" 50 10 ⟨0, false, true⟩
      (by decide) (by decide) (by decide) (by decide) rfl⟩

/-- A bounded pool already over capacity (`max_conn = 1`, two entries), with
every entry marked in-use. -/
def poolOverCap : Pool :=
  ⟨[("a", ⟨connA, 100, 0⟩), ("b", ⟨connB, 100, 1⟩)], Stats.init, cfOk, 1,
    [("a", true), ("b", true)]⟩

/-- C5: on a bounded pool in which all existing entries are marked in-use but
the entry count exceeds `max_conn`, acquiring a new distinct key never
terminates: `_evict_lru` returns without evicting (the LRU victim "a" is in
use), so `while len(self._conns) > self.max_conn` spins forever, and the
acquire call neither returns a connection nor raises - contradicting the
claim that the call always completes for every such state. -/
theorem c5_acquire_diverges_counterexample :
    ¬ ∃ (fuel : Nat) (res : Pool × Except PyErr Conn),
        get_connection_limited fuel poolOverCap "c" 50 10 = some res := by
  have hloop : ∀ n, evictLoop n poolOverCap = none := by
    intro n
    induction n with
    | zero => rfl
    | succ m ih =>
      have h1 : evictLoop (m + 1) poolOverCap = evictLoop m poolOverCap := rfl
      rw [h1]
      exact ih
  rintro ⟨fuel, res, hres⟩
  have h2 : get_connection_limited fuel poolOverCap "c" 50 10 =
      afterEvict "c" 50 10 (evictLoop fuel poolOverCap) := rfl
  rw [h2, hloop fuel] at hres
  exact Option.noConfusion hres

/-- C1 (amended): on a freshly constructed bounded pool with capacity `N`,
acquiring `N + 1` pairwise-distinct keys at increasing times (TTL at least
`N`, factory always succeeding) never evicts anything: every call returns
normally and afterwards the map holds exactly the `N + 1` keys in
acquisition order. No entry - in particular not the least-recently-used
first key - is removed, because the eviction loop only runs while the entry
count strictly exceeds `max_conn` (it is checked before the new entry is
inserted), and every key acquired below capacity is marked in-use anyway. -/
theorem c1_no_eviction_all_keys_remain (fuel : Nat) (N ttl_ms : Nat) (ks : List String)
    (cf : String → Conn)
    (hlen : ks.length = N + 1) (hnd : ks.Nodup) (httl : N ≤ ttl_ms) :
    ∃ q : Pool,
      acquireSeq fuel ttl_ms (freshLimited cf N) (timedKeys 0 ks) = some q ∧
      q.conns.map Prod.fst = ks ∧
      q.conns.length = N + 1 := by
  obtain ⟨q, heq, hmap⟩ := acquireSeq_fresh_keys fuel ttl_ms cf ks 0 (freshLimited cf N)
    (fun _ => rfl) (by simpa [freshLimited] using hnd) rfl
    (by simp [freshLimited, hlen]) (by simpa [freshLimited] using httl)
    (by simp [freshLimited])
  have hmap2 : q.conns.map Prod.fst = ks := by simpa [freshLimited] using hmap
  refine ⟨q, heq, hmap2, ?_⟩
  have hql : (q.conns.map Prod.fst).length = ks.length := by rw [hmap2]
  simpa [hlen] using hql

theorem c1_no_eviction_witness :
    ((["a", "b", "c"] : List String).length = 2 + 1 ∧
      (["a", "b", "c"] : List String).Nodup ∧ 2 ≤ 10) ∧
    (∃ q : Pool,
      acquireSeq 0 10 (freshLimited (fun _ => ⟨0, false, true⟩) 2) (timedKeys 0 ["a", "b", "c"]) = some q ∧
      q.conns.map Prod.fst = ["a", "b", "c"] ∧
      q.conns.length = 2 + 1) :=
  ⟨⟨by decide, by decide, by decide⟩,
    c1_no_eviction_all_keys_remain 0 2 10 ["a", "b", "c"] (fun _ => ⟨0, false, true⟩)
      (by decide) (by decide) (by decide)⟩

/-- C1: the concrete scenario of the claim, `maxConnections = 2`, acquires of
"a", "b", "c" at times 0, 1, 2 with TTL 10 on a fresh bounded pool: afterwards
the map still holds all three keys - "a" was never evicted and the entry count
is 3, strictly above the cap of 2 - contradicting the claim that "a" is
evicted and exactly two entries remain. -/
theorem c1_lru_eviction_counterexample :
    ∃ q : Pool,
      acquireSeq 5 10 (freshLimited (fun _ => Conn.mk 0 false true) 2) (timedKeys 0 ["a", "b", "c"]) = some q ∧
      q.conns.map Prod.fst = ["a", "b", "c"] ∧
      2 < q.conns.length ∧
      "a" ∈ q.conns.map Prod.fst := by
  refine ⟨_, rfl, ?_, ?_, ?_⟩ <;> decide

/-- Replace the reported parameter count of the pool factory, keeping the
callable itself: used to state that `get_connection` never inspects the
signature. -/
def setSignatureParams (p : Pool) (n : Nat) : Pool :=
  { p with connect_fn := { parameters := n, fn := p.connect_fn.fn } }

theorem pruneLoop_setSignatureParams (now n : Nat) :
    ∀ (l : List (String × ConnectionWithTTLAndLastAccess)) (p : Pool),
      pruneLoop now (setSignatureParams p n) l =
        (setSignatureParams (pruneLoop now p l).1 n, (pruneLoop now p l).2) := by
  intro l
  induction l with
  | nil => intro p; rfl
  | cons kv rest ih =>
    intro p
    rw [show kv = (kv.1, kv.2) from rfl]
    simp only [pruneLoop]
    by_cases hd : kv.2.deadline < now
    · rw [if_pos hd, if_pos hd]
      rfl
    · rw [if_neg hd, if_neg hd]
      exact ih p

theorem prune_setSignatureParams (p : Pool) (now n : Nat) :
    prune_connections (setSignatureParams p n) now =
      (setSignatureParams (prune_connections p now).1 n, (prune_connections p now).2) := by
  simp only [prune_connections]
  have h : (setSignatureParams p n).conns = p.conns := rfl
  rw [h]
  exact pruneLoop_setSignatureParams now n p.conns p

theorem get_connection_setSignatureParams (p : Pool) (n : Nat) (dbname : String)
    (ttl_ms now : Nat) :
    get_connection (setSignatureParams p n) dbname ttl_ms now =
      (setSignatureParams (get_connection p dbname ttl_ms now).1 n,
        (get_connection p dbname ttl_ms now).2) := by
  have hps := prune_setSignatureParams p now n
  cases hpr : prune_connections p now with
  | mk p1 r =>
    rw [hpr] at hps
    simp only [get_connection, hps, hpr]
    cases r with
    | error e => rfl
    | ok u =>
      obtain ⟨qc, qs, ⟨qfp, qff⟩, qm, qu⟩ := p1
      simp only [setSignatureParams]
      cases hg : dictGet qc dbname with
      | none =>
        cases hf : qff dbname with
        | error e => simp [hg, hf]
        | ok c => simp [hg, hf]
      | some en =>
        by_cases hc : en.connection.closed
        · cases hf : qff dbname with
          | error e => simp [hg, hf, hc]
          | ok c => simp [hg, hf, hc]
        · simp [hg, hc]

/-- C9: the factory signature is checked once, at construction: constructing
the pool raises `ValueError` exactly when the factory does not take exactly
one parameter, succeeds (with empty state) when it does, and `get_connection`
never re-inspects the signature - its behaviour is entirely independent of
the factory's reported parameter count. -/
theorem c9_signature_checked_at_init :
    (∀ cf : ConnectFn, cf.parameters ≠ 1 →
        MultiDatabaseConnectionPool_init cf = Except.error PyErr.valueError) ∧
    (∀ cf : ConnectFn, cf.parameters = 1 →
        MultiDatabaseConnectionPool_init cf =
          Except.ok { conns := [], stats := Stats.init, connect_fn := cf,
                      max_conn := 0, dbs_usage := [] }) ∧
    (∀ (p : Pool) (n : Nat) (dbname : String) (ttl_ms now : Nat),
        get_connection (setSignatureParams p n) dbname ttl_ms now =
          (setSignatureParams (get_connection p dbname ttl_ms now).1 n,
            (get_connection p dbname ttl_ms now).2)) := by
  refine ⟨?_, ?_, ?_⟩
  · intro cf hcf
    simp [MultiDatabaseConnectionPool_init, hcf]
  · intro cf hcf
    simp [MultiDatabaseConnectionPool_init, hcf]
  · intro p n dbname ttl_ms now
    exact get_connection_setSignatureParams p n dbname ttl_ms now

/-- A factory reporting two parameters (rejected at construction). -/
def cfTwoParams : ConnectFn := ⟨2, fun _ => Except.error PyErr.connectionError⟩

theorem c9_signature_witness :
    (cfTwoParams.parameters ≠ 1 ∧
      MultiDatabaseConnectionPool_init cfTwoParams = Except.error PyErr.valueError) ∧
    (cfOk.parameters = 1 ∧
      MultiDatabaseConnectionPool_init cfOk =
        Except.ok { conns := [], stats := Stats.init, connect_fn := cfOk,
                    max_conn := 0, dbs_usage := [] }) ∧
    (get_connection (setSignatureParams poolReuse 7) "db1" 50 30 =
      (setSignatureParams (get_connection poolReuse "db1" 50 30).1 7,
        (get_connection poolReuse "db1" 50 30).2)) :=
  ⟨⟨by decide, c9_signature_checked_at_init.1 cfTwoParams (by decide)⟩,
    ⟨rfl, c9_signature_checked_at_init.2.1 cfOk rfl⟩,
    c9_signature_checked_at_init.2.2 poolReuse 7 "db1" 50 30⟩
